import Mathlib

/-!
Verification development for the streaming tag parser and session-transition
manager of the amazon-nova-samples repository.

Shallow embedding of:
  * `NovaResponseParser` from
    multimodal-understanding/repeatable-patterns/31-nova-stream-parser/
    NovaStreamParser/nova_response_parser.py
  * `AudioBuffer`, `ConversationHistory`, `SessionTransitionManager` from
    speech-to-speech/repeatable-patterns/session-continuation/console-python/
    session_manager.py

Conventions of the embedding:
  * Python `str` values are Lean `String`s; where the source works on the
    UTF-8 encoding (`.encode('utf-8')`), byte strings are `List Nat`.
  * Machine-level I/O (logging, WAV recording, file writes, asyncio task
    objects, wall-clock reads) is dropped; wall-clock time enters as an
    explicit `now : Nat` argument, and fallible external calls (stream
    creation) as an explicit Boolean oracle argument.
  * Python exceptions are modelled with `Except` or an explicit "raised"
    Boolean on the returned state.
-/

namespace NovaSamples

/-! ## NovaResponseParser (nova_response_parser.py) -/

/-- State of `NovaResponseParser.__init__` / `reset`.  The `tag` list is the
character buffer `self.tag`, `text_chunks` is `self.text_chunks`. -/
structure NovaResponseParser where
  target_tag_name : String
  tag : List Char
  inside_tag : Bool
  text_chunks : List String
  is_found_target_start_tag : Bool
  is_found_target_end_tag : Bool
  inside_tag_content : Bool
deriving DecidableEq, Repr

namespace NovaResponseParser

/-- `NovaResponseParser(target_tag_name)` constructor. -/
def init (target_tag_name : String) : NovaResponseParser :=
  { target_tag_name := target_tag_name
    tag := []
    inside_tag := false
    text_chunks := []
    is_found_target_start_tag := false
    is_found_target_end_tag := false
    inside_tag_content := false }

/-- `self.target_start_tag = f"<{target_tag_name}>"` as a character list. -/
def startTok (p : NovaResponseParser) : List Char :=
  ("<" ++ p.target_tag_name ++ ">").data

/-- `self.target_end_tag = f"</{target_tag_name}>"` as a character list. -/
def endTok (p : NovaResponseParser) : List Char :=
  ("</" ++ p.target_tag_name ++ ">").data

/-- `NovaResponseParser.reset`. -/
def reset (p : NovaResponseParser) : NovaResponseParser :=
  { p with
    tag := []
    inside_tag := false
    text_chunks := []
    is_found_target_start_tag := false
    is_found_target_end_tag := false
    inside_tag_content := false }

/-- One iteration of the `for curr in text_chunk` loop body of
`process_chunk`: the unconditional append to `self.tag` while
`self.inside_tag`, then the `'<'` / `'>'` dispatch. -/
def scanChar (p : NovaResponseParser) (curr : Char) : NovaResponseParser :=
  let stok := p.startTok
  let etok := p.endTok
  let p := if p.inside_tag then { p with tag := p.tag ++ [curr] } else p
  if curr = '<' then
    { p with inside_tag := true, tag := ['<'] }
  else if curr = '>' then
    let p := { p with inside_tag := false }
    if p.tag = stok then
      { p with inside_tag_content := true, is_found_target_start_tag := true, tag := [] }
    else if p.tag = etok then
      { p with is_found_target_end_tag := true, inside_tag := false, inside_tag_content := false }
    else
      { p with inside_tag := false, tag := [] }
  else
    p

/-- The whole `for curr in text_chunk` loop. -/
def scanChars (p : NovaResponseParser) (cs : List Char) : NovaResponseParser :=
  cs.foldl scanChar p

/-- Remainder of `l` strictly after the first occurrence of `tok` as a
contiguous block, if any (how `re`'s lazy `.*?` locates the end token). -/
def splitAfterTok (tok : List Char) : List Char → Option (List Char)
  | [] => if tok = [] then some [] else none
  | c :: rest =>
    if tok <+: (c :: rest) then some (List.drop tok.length (c :: rest))
    else splitAfterTok tok rest

/-- Fuelled left-to-right scan of `re.sub(rf'<name>.*?</name>', '', text,
flags=re.DOTALL)`: at each position, if the start token matches and an end
token occurs later, the shortest such span is deleted and scanning resumes
after it; otherwise the character is kept.  Fuel `text.length` always
suffices since every step consumes at least one character. -/
def removeTagsFuel (st en : List Char) : Nat → List Char → List Char
  | 0, l => l
  | _ + 1, [] => []
  | f + 1, c :: rest =>
    if st <+: (c :: rest) then
      match splitAfterTok en (List.drop st.length (c :: rest)) with
      | some rest2 => removeTagsFuel st en f rest2
      | none => c :: removeTagsFuel st en f rest
    else
      c :: removeTagsFuel st en f rest

/-- `NovaResponseParser._remove_tags_from_text`. -/
def remove_tags_from_text (p : NovaResponseParser) (text : String) : String :=
  ⟨removeTagsFuel p.startTok p.endTok text.data.length text.data⟩

/-- Body of `NovaResponseParser.process_chunk` after the `None` check, for a
(non-null) fragment.  A returned `some t` records that
`callback(chunk, t)` was invoked (and its result returned); `none` is the
`return None` path. -/
def process_chunk_core (p : NovaResponseParser) (text_chunk : String) :
    NovaResponseParser × Option String :=
  let p := { p with text_chunks := p.text_chunks ++ [text_chunk] }
  let p := p.scanChars text_chunk.data
  if p.is_found_target_start_tag ∧ p.is_found_target_end_tag then
    let text := String.join p.text_chunks
    let clean_text := p.remove_tags_from_text text
    (p.reset, some clean_text)
  else if ¬p.inside_tag_content ∧ ¬p.inside_tag then
    let text := String.join p.text_chunks
    (p.reset, some text)
  else
    (p, none)

/-- Error signals of the parser (`raise ValueError(...)`). -/
inductive ParserError
  | invalidInput
deriving DecidableEq, Repr

/-- `NovaResponseParser.process_chunk`, including the
`if text_chunk is None: raise ValueError` guard; the Python `None` argument
is `Option.none`. -/
def process_chunk (p : NovaResponseParser) (text_chunk : Option String) :
    Except ParserError (NovaResponseParser × Option String) :=
  match text_chunk with
  | none => .error .invalidInput
  | some s => .ok (p.process_chunk_core s)

/-- Feed a list of (non-null) fragments in order, collecting each call's
callback outcome. -/
def run_chunks (p : NovaResponseParser) : List String → NovaResponseParser × List (Option String)
  | [] => (p, [])
  | f :: fs =>
    let r := p.process_chunk_core f
    let rest := run_chunks r.1 fs
    (rest.1, r.2 :: rest.2)

/-- Concatenation of all texts passed to the callback over a run. -/
def flushedText (outs : List (Option String)) : String :=
  String.join (outs.filterMap id)

/-- Invariant of the character scan while no start token has been recognized:
`s` is the text scanned since the last reset.  The `tag` buffer is the run of
characters since the last `'<'` (a suffix of `s` beginning with `'<'`) while
`inside_tag`, and otherwise either empty or a stale copy of the end token
(which the end-tag branch does not clear). -/
def ScanInv (p : NovaResponseParser) (s : List Char) : Prop :=
  p.is_found_target_start_tag = false ∧
  p.inside_tag_content = false ∧
  (p.inside_tag = true → (∃ t, p.tag = '<' :: t) ∧ p.tag <:+ s) ∧
  (p.inside_tag = false → p.tag = [] ∨ p.tag = p.endTok)

end NovaResponseParser

/-! ## AudioBuffer (session_manager.py lines 60-92) -/

/-- An audio chunk (Python `bytes`) as a list of byte values. -/
abbrev AudioChunk := List Nat

/-- `AudioBuffer.__init__` state: the deque is a list with the head at the
`popleft` end (oldest chunk first). -/
structure AudioBuffer where
  max_duration_seconds : Nat
  sample_rate : Nat
  sample_width : Nat
  max_buffer_size : Nat
  buffer : List AudioChunk
  total_size : Nat
deriving DecidableEq, Repr

namespace AudioBuffer

/-- `AudioBuffer(max_duration_seconds, sample_rate, sample_width)`. -/
def init (max_duration_seconds sample_rate sample_width : Nat) : AudioBuffer :=
  { max_duration_seconds := max_duration_seconds
    sample_rate := sample_rate
    sample_width := sample_width
    max_buffer_size := max_duration_seconds * sample_rate * sample_width
    buffer := []
    total_size := 0 }

/-- The `while self.total_size > self.max_buffer_size and self.buffer:` loop of
`add_chunk`, popping oldest chunks.  (`total_size -= len(removed)` is exact
because `total_size` always equals the sum of the buffered lengths.) -/
def evictLoop (max_buffer_size : Nat) : List AudioChunk → Nat → List AudioChunk × Nat
  | [], total => ([], total)
  | c :: rest, total =>
    if max_buffer_size < total then evictLoop max_buffer_size rest (total - c.length)
    else (c :: rest, total)

/-- `AudioBuffer.add_chunk`. -/
def add_chunk (b : AudioBuffer) (audio_chunk : AudioChunk) : AudioBuffer :=
  let r := evictLoop b.max_buffer_size (b.buffer ++ [audio_chunk])
    (b.total_size + audio_chunk.length)
  { b with buffer := r.1, total_size := r.2 }

/-- `AudioBuffer.get_all_chunks`. -/
def get_all_chunks (b : AudioBuffer) : List AudioChunk := b.buffer

/-- `AudioBuffer.clear`. -/
def clear (b : AudioBuffer) : AudioBuffer := { b with buffer := [], total_size := 0 }

/-- `AudioBuffer.is_empty`. -/
def is_empty (b : AudioBuffer) : Bool := b.buffer.length = 0

/-- A whole sequence of `add_chunk` calls. -/
def add_all (b : AudioBuffer) (cs : List AudioChunk) : AudioBuffer :=
  cs.foldl add_chunk b

/-- Total byte count of a list of chunks. -/
def sumLens (l : List AudioChunk) : Nat := (l.map List.length).sum

end AudioBuffer

/-! ## ConversationHistory (session_manager.py lines 145-207)

The source manipulates `str` contents but enforces limits on their UTF-8
encodings (`content.encode('utf-8')`); messages are therefore embedded with
`role`/`content` kept as UTF-8 byte strings (`List Nat`). -/

/-- UTF-8 encoding of one scalar value. -/
def utf8EncodeChar (c : Char) : List Nat :=
  let v := c.toNat
  if v < 0x80 then [v]
  else if v < 0x800 then [0xC0 + v / 0x40, 0x80 + v % 0x40]
  else if v < 0x10000 then
    [0xE0 + v / 0x1000, 0x80 + (v / 0x40) % 0x40, 0x80 + v % 0x40]
  else
    [0xF0 + v / 0x40000, 0x80 + (v / 0x1000) % 0x40, 0x80 + (v / 0x40) % 0x40,
      0x80 + v % 0x40]

/-- `s.encode('utf-8')` for a Python `str`. -/
def utf8Encode (s : String) : List Nat := (s.data.map utf8EncodeChar).flatten

/-- Is `b` a UTF-8 continuation byte (0x80-0xBF)? -/
def IsCont (b : Nat) : Prop := 0x80 ≤ b ∧ b ≤ 0xBF

instance (b : Nat) : Decidable (IsCont b) := by unfold IsCont; infer_instance

/-- Classify the head of a byte string: number of bytes consumed (≥ 1 on
nonempty input) and whether they form a well-formed scalar sequence (strict
checks: no overlong forms, no surrogates, max U+10FFFF).  On a malformed head
the consumed count is the maximal invalid subpart CPython's decoder skips. -/
def utf8Next : List Nat → Nat × Bool
  | [] => (0, false)
  | b :: rest =>
    if b ≤ 0x7F then (1, true)
    else if 0xC2 ≤ b ∧ b ≤ 0xDF then
      match rest with
      | b2 :: _ => if IsCont b2 then (2, true) else (1, false)
      | [] => (1, false)
    else if 0xE0 ≤ b ∧ b ≤ 0xEF then
      match rest with
      | b2 :: rest2 =>
        if IsCont b2 ∧ (b = 0xE0 → 0xA0 ≤ b2) ∧ (b = 0xED → b2 ≤ 0x9F) then
          match rest2 with
          | b3 :: _ => if IsCont b3 then (3, true) else (2, false)
          | [] => (2, false)
        else (1, false)
      | [] => (1, false)
    else if 0xF0 ≤ b ∧ b ≤ 0xF4 then
      match rest with
      | b2 :: rest2 =>
        if IsCont b2 ∧ (b = 0xF0 → 0x90 ≤ b2) ∧ (b = 0xF4 → b2 ≤ 0x8F) then
          match rest2 with
          | b3 :: rest3 =>
            if IsCont b3 then
              match rest3 with
              | b4 :: _ => if IsCont b4 then (4, true) else (3, false)
              | [] => (3, false)
            else (2, false)
          | [] => (2, false)
        else (1, false)
      | [] => (1, false)
    else (1, false)

/-- Composite of `bytes.decode('utf-8', errors='ignore')` followed by
re-encoding: well-formed scalar sequences are kept verbatim, malformed
subparts are dropped.  Fuelled; fuel `l.length` always suffices because every
step consumes at least one byte. -/
def utf8CleanFuel : Nat → List Nat → List Nat
  | 0, _ => []
  | _ + 1, [] => []
  | f + 1, l =>
    let r := utf8Next l
    if r.2 then l.take r.1 ++ utf8CleanFuel f (l.drop r.1)
    else utf8CleanFuel f (l.drop r.1)

/-- `bs.decode('utf-8', errors='ignore')`, with the resulting `str` represented
by its re-encoding. -/
def utf8Clean (l : List Nat) : List Nat := utf8CleanFuel l.length l

/-- Python `l[:k]` for an `int` bound `k`; a negative `k` counts from the end
(`l[:-n]` drops the last `n` elements). -/
def pySliceTo (l : List Nat) (k : Int) : List Nat :=
  if 0 ≤ k then l.take k.toNat
  else l.take ((l.length : Int) + k).toNat

/-- UTF-8 bytes of `truncation_marker = "... [truncated]"`. -/
def truncation_marker : List Nat := utf8Encode "... [truncated]"

/-- One entry of `ConversationHistory.messages` (the dict built at
session_manager.py lines 176-181), with `role`/`content` as UTF-8 bytes. -/
structure HMessage where
  role : List Nat
  content : List Nat
  type : String
  timestamp : Nat
deriving DecidableEq, Repr

/-- `ConversationHistory._get_message_size_bytes`. -/
def _get_message_size_bytes (m : HMessage) : Nat := m.content.length + m.role.length

/-- `ConversationHistory._get_total_size_bytes`. -/
def _get_total_size_bytes (msgs : List HMessage) : Nat :=
  (msgs.map _get_message_size_bytes).sum

/-- The content-truncation step of `add_message` (lines 163-172):
`content_bytes[:max_single_message_bytes - len(marker)]` decoded with
`errors='ignore'` and the marker appended.  Note `max_content_bytes` is a
Python `int` and can be negative. -/
def truncateContent (max_single_message_bytes : Nat) (content_bytes : List Nat) : List Nat :=
  let max_content_bytes : Int :=
    (max_single_message_bytes : Int) - (truncation_marker.length : Int)
  utf8Clean (pySliceTo content_bytes max_content_bytes) ++ truncation_marker

/-- The message record `add_message` appends for a given input. -/
def storedMessage (max_single_message_bytes : Nat) (role content_bytes : List Nat)
    (message_type : String) (now : Nat) : HMessage :=
  { role := role
    content :=
      if max_single_message_bytes < content_bytes.length then
        truncateContent max_single_message_bytes content_bytes
      else content_bytes
    type := message_type
    timestamp := now }

/-- `ConversationHistory._trim_history`: pop oldest messages while the total
byte size exceeds the cap. -/
def _trim_history (max_chat_history_bytes : Nat) : List HMessage → List HMessage
  | [] => []
  | m :: rest =>
    if max_chat_history_bytes < _get_total_size_bytes (m :: rest) then
      _trim_history max_chat_history_bytes rest
    else m :: rest

/-- `ConversationHistory` state. -/
structure ConversationHistory where
  messages : List HMessage
  max_single_message_bytes : Nat
  max_chat_history_bytes : Nat
deriving DecidableEq, Repr

namespace ConversationHistory

/-- `ConversationHistory(max_single_message_bytes, max_chat_history_bytes)`. -/
def init (max_single_message_bytes max_chat_history_bytes : Nat) : ConversationHistory :=
  { messages := []
    max_single_message_bytes := max_single_message_bytes
    max_chat_history_bytes := max_chat_history_bytes }

/-- The dict returned by `add_message`. -/
structure AddResult where
  truncated : Bool
  messages_removed : Nat
  total_bytes : Nat
deriving DecidableEq, Repr

/-- `ConversationHistory.add_message(role, content, message_type)`, with the
`time.time()` timestamp passed in as `now`.  `messages_before + 1 -
messages.length` equals Python's `messages_before - len(self.messages) + 1`
(which is never negative). -/
def add_message (h : ConversationHistory) (role content_bytes : List Nat)
    (message_type : String) (now : Nat) : ConversationHistory × AddResult :=
  let was_truncated := decide (h.max_single_message_bytes < content_bytes.length)
  let messages_before := h.messages.length
  let messages := h.messages ++
    [storedMessage h.max_single_message_bytes role content_bytes message_type now]
  let messages := _trim_history h.max_chat_history_bytes messages
  let messages_removed := messages_before + 1 - messages.length
  ({ h with messages := messages },
    { truncated := was_truncated
      messages_removed := if 1 < messages_removed then messages_removed else 0
      total_bytes := _get_total_size_bytes messages })

/-- `ConversationHistory.clear`. -/
def clear (h : ConversationHistory) : ConversationHistory := { h with messages := [] }

/-- One input to `add_message`. -/
structure AddInput where
  role : List Nat
  content : List Nat
  message_type : String
  now : Nat
deriving DecidableEq, Repr

/-- A whole sequence of `add_message` calls. -/
def add_messages (h : ConversationHistory) (l : List AddInput) : ConversationHistory :=
  l.foldl (fun h a => (h.add_message a.role a.content a.message_type a.now).1) h

end ConversationHistory

/-! ## SessionTransitionManager (session_manager.py lines 12-58, 320-1032)

The manager's asyncio behaviour is embedded as a sequential state machine:
`monitor_step` models one iteration of the `_monitor_events` while-loop, with
the wall clock passed in as `now : Nat` (whole seconds) and the fallible
stream creation inside `create_session` driven by a Boolean oracle
(`createOk = true` means the awaited `initialize_stream` succeeds).
Logging, WAV/JSON recording, asyncio task-handle bookkeeping and the
`last_output_time` timestamp are I/O details that are dropped. -/

/-- `SessionState` enum. -/
inductive SessionState
  | initializing
  | active
  | closing
  | closed
deriving DecidableEq, Repr

/-- The slice of the (out-of-repository) `BedrockStreamManager` transport whose
state the manager's modelled control flow reads or writes. -/
structure MStreamManager where
  is_active : Bool
  audio_output_queue : List AudioChunk
deriving DecidableEq, Repr

/-- `SessionInfo` (lines 19-58).  Recorder handles and `last_output_time` are
I/O bookkeeping and are dropped; the `session_{n}` identifier string is
represented by the number `n`, and the Bedrock-assigned session id likewise. -/
structure SessionInfo where
  session_id : Nat
  stream_manager : MStreamManager
  start_time : Nat
  state : SessionState
  received_completion_start : Bool
  barge_in_detected : Bool
  current_generation_stage : Option String
  current_content_role : Option String
  current_content_type : Option String
  model_session_id : Option Nat
  audio_content_started : Bool
  received_final_text : Bool
  speculative_text_count : Nat
  final_text_count : Nat
deriving DecidableEq, Repr

namespace SessionInfo

/-- `SessionInfo.get_duration` at wall-clock `now`. -/
def get_duration (s : SessionInfo) (now : Nat) : Int :=
  (now : Int) - (s.start_time : Int)

/-- `SessionInfo.should_transition`. -/
def should_transition (s : SessionInfo) (now : Nat) (threshold : Nat) : Prop :=
  (threshold : Int) ≤ s.get_duration now

instance (s : SessionInfo) (now threshold : Nat) :
    Decidable (s.should_transition now threshold) := by
  unfold should_transition; infer_instance

end SessionInfo

/-- The fields of the `session_transition` block of `session_config.json` that
the modelled control flow reads, with times in whole seconds. -/
structure TransitionConfig where
  transition_threshold_seconds : Nat
  audio_buffer_duration_seconds : Nat
  audio_start_timeout_seconds : Nat
  next_session_ready_timeout_seconds : Nat
  max_single_message_bytes : Nat
  max_chat_history_bytes : Nat
deriving DecidableEq, Repr

/-- The event shapes `_process_event` branches on.  For `contentStart`, the
`generationStage` parsed out of `additionalModelFields` is carried directly;
`other` stands for any event the method does not branch on (including
`usageEvent` and dicts without an `'event'` key). -/
inductive MEvent
  | contentStart (role ctype generationStage : Option String)
  | completionStart (model_session_id : Option Nat)
  | textOutput (content role : String)
  | contentEnd (ctype stopReason : Option String)
  | other
deriving DecidableEq, Repr

/-- Observable transmissions to the next session during
`_send_history_and_start_audio` (the JSON/UUID envelope built by
`get_history_events` is serialization detail; what is observable is which
messages and chunks are sent). -/
inductive ManagerOutput
  | historyEvents (msgs : List HMessage)
  | audioContentStart
  | bufferedAudio (chunks : List AudioChunk)
deriving DecidableEq, Repr

/-- The mutable state of `SessionTransitionManager` (lines 323-379) that the
modelled control flow reads or writes. -/
structure ManagerState where
  transition_config : TransitionConfig
  current_session : Option SessionInfo
  next_session : Option SessionInfo
  session_counter : Nat
  audio_buffer : AudioBuffer
  is_buffering : Bool
  conversation_history : ConversationHistory
  is_transitioning : Bool
  transition_ready : Bool
  waiting_for_audio_start : Bool
  waiting_for_completion : Bool
  user_was_speaking : Bool
  barge_in_occurred : Bool
  audio_start_wait_start : Option Nat
deriving DecidableEq, Repr

namespace ManagerState

/-- The `SessionInfo` built by a successful `create_session` (lines 393-440):
fresh per-session flags, `state = ACTIVE`. -/
def mk_session (session_id now : Nat) : SessionInfo :=
  { session_id := session_id
    stream_manager := { is_active := true, audio_output_queue := [] }
    start_time := now
    state := SessionState.active
    received_completion_start := false
    barge_in_detected := false
    current_generation_stage := none
    current_content_role := none
    current_content_type := none
    model_session_id := none
    audio_content_started := false
    received_final_text := false
    speculative_text_count := 0
    final_text_count := 0 }

/-- `SessionTransitionManager.__init__` followed by
`initialize_first_session`, both at time `now`. -/
def initial_manager (cfg : TransitionConfig) (now : Nat) : ManagerState :=
  { transition_config := cfg
    current_session := some (mk_session 0 now)
    next_session := none
    session_counter := 1
    audio_buffer := AudioBuffer.init cfg.audio_buffer_duration_seconds 16000 2
    is_buffering := false
    conversation_history :=
      ConversationHistory.init cfg.max_single_message_bytes cfg.max_chat_history_bytes
    is_transitioning := false
    transition_ready := false
    waiting_for_audio_start := false
    waiting_for_completion := false
    user_was_speaking := false
    barge_in_occurred := false
    audio_start_wait_start := none }

/-- `SessionTransitionManager._initiate_transition` (lines 665-736) at time
`now`.  `createOk` is the outcome of the awaited stream creation inside
`create_session`; the returned Boolean is `true` when the method re-raises
(line 736).  The readiness-watchdog task it starts is bookkeeping for
`_monitor_next_session_readiness` and is dropped. -/
def initiate_transition (st : ManagerState) (now : Nat) (createOk : Bool) :
    ManagerState × Bool :=
  if st.is_transitioning then (st, false)
  else
    let st := { st with
      is_transitioning := true
      waiting_for_audio_start := false
      waiting_for_completion := true
      audio_start_wait_start := none }
    -- try-block: resize the audio buffer from config (lines 685-687)
    let dur := st.transition_config.audio_buffer_duration_seconds
    let buf := { st.audio_buffer with
      max_duration_seconds := dur
      max_buffer_size := dur * 16000 * 2 }
    let st := { st with audio_buffer := buf }
    -- create_session assigns the id and bumps the counter before the stream
    -- initialization that can fail (lines 395-405)
    let sid := st.session_counter
    let st := { st with session_counter := st.session_counter + 1 }
    if createOk then
      ({ st with next_session := some (mk_session sid now), transition_ready := true }, false)
    else
      -- except-block (lines 718-736): reset all transition flags, discard any
      -- partial next session, log, re-raise
      ({ st with
          is_transitioning := false
          transition_ready := false
          waiting_for_audio_start := false
          waiting_for_completion := false
          audio_start_wait_start := none
          next_session := none }, true)

/-- `SessionTransitionManager._close_old_session_and_promote` (lines 889-957).
The old session's queue clearing, recorder stops and background stream close
(lines 936-952) act on the session that has just left both slots; they are
external I/O and the session drops out of the model with them. -/
def close_old_session_and_promote (st : ManagerState) : ManagerState :=
  match st.current_session, st.next_session with
  | some _old, some nxt =>
    { st with
      current_session := some nxt
      next_session := none
      is_transitioning := false
      transition_ready := false
      user_was_speaking := false
      barge_in_occurred := false
      audio_buffer := st.audio_buffer.clear
      is_buffering := false }
  | _, _ => st

/-- `SessionTransitionManager._send_history_and_start_audio` (lines 839-887),
returning the transmissions made to the next session.
`_save_conversation_history` is file I/O and is dropped; the sends themselves
are modelled as pure, so the re-raise at line 887 cannot fire. -/
def send_history_and_start_audio (st : ManagerState) : ManagerState × List ManagerOutput :=
  if st.next_session = none ∨ st.waiting_for_completion = false then (st, [])
  else if st.waiting_for_completion = false then (st, [])  -- re-check under the lock
  else
    let st := { st with waiting_for_completion := false }
    let histOuts := if st.conversation_history.messages = [] then []
                    else [ManagerOutput.historyEvents st.conversation_history.messages]
    -- send_audio_content_start_event, then audio_content_started = True
    let nxt := st.next_session.map (fun s => { s with audio_content_started := true })
    let st := { st with next_session := nxt }
    -- _send_buffered_audio_to_next_session (lines 984-1031): nothing is sent
    -- when the buffer is empty, and the buffer is not cleared here
    let bufOuts := if st.audio_buffer.is_empty then []
                   else [ManagerOutput.bufferedAudio st.audio_buffer.get_all_chunks]
    let st := st.close_old_session_and_promote
    (st, histOuts ++ [ManagerOutput.audioContentStart] ++ bufOuts)

/-- The barge-in marker `'{ "interrupted" : true }'` searched for in text
content at line 553. -/
def interruptedMarker : String := "\x7b \"interrupted\" : true \x7d"

/-- The USER-speech-during-transition condition of line 571 (with
`session == self.current_session` holding by invocation). -/
def user_during_transition (st : ManagerState) (role content : String) : Prop :=
  st.is_transitioning = true ∧ role = "USER" ∧ content ≠ ""

instance (st : ManagerState) (role content : String) :
    Decidable (st.user_during_transition role content) := by
  unfold user_during_transition; infer_instance

/-- The forced-completion condition of line 581: user spoke during a forced
transition before any assistant response. -/
def forced_completion (st : ManagerState) (session : SessionInfo)
    (role content : String) : Prop :=
  st.user_during_transition role content ∧ session.final_text_count = 0 ∧
    st.waiting_for_completion = true

instance (st : ManagerState) (session : SessionInfo) (role content : String) :
    Decidable (st.forced_completion session role content) := by
  unfold forced_completion; infer_instance

/-- `is_relevant_session` of lines 589-594, evaluated for
`session = self.current_session`; `session == self.next_session` is `False`
there because the two slots never alias. -/
def is_relevant_session (st : ManagerState) (role : String) : Prop :=
  ¬(st.is_transitioning = true ∧ role = "USER")

instance (st : ManagerState) (role : String) :
    Decidable (st.is_relevant_session role) := by
  unfold is_relevant_session; infer_instance

/-- The count-sync condition of lines 604-607: user speaking after a
pre-transition barge-in. -/
def barge_in_count_sync (st : ManagerState) (session : SessionInfo) : Prop :=
  session.barge_in_detected = true ∧ ¬st.is_transitioning = true ∧
    session.final_text_count < session.speculative_text_count

instance (st : ManagerState) (session : SessionInfo) :
    Decidable (st.barge_in_count_sync session) := by
  unfold barge_in_count_sync; infer_instance

/-- The text-pairs-matched completion condition of lines 637-641 (with
`session == self.current_session` holding by invocation). -/
def completion_signal (st : ManagerState) (session : SessionInfo) : Prop :=
  st.waiting_for_completion = true ∧ 0 < session.speculative_text_count ∧
    0 < session.final_text_count ∧
    session.speculative_text_count = session.final_text_count

instance (st : ManagerState) (session : SessionInfo) :
    Decidable (completion_signal st session) := by
  unfold completion_signal; infer_instance

/-- Run the forced-completion task spawned with `asyncio.create_task` at line
583, if one was scheduled: it runs at the next suspension point, and nothing
else in the same monitor iteration touches manager state, so the model runs
it at the end of the event. -/
def runForced (st : ManagerState) (outs : List ManagerOutput) (forced : Bool) :
    ManagerState × List ManagerOutput × Bool :=
  if forced then
    let r := send_history_and_start_audio st
    (r.1, outs ++ r.2, false)
  else (st, outs, false)

/-- `SessionTransitionManager._process_event(event, session)` (lines 493-663)
as invoked from `_monitor_events`, i.e. with `session = self.current_session`
(so the `session == self.current_session` tests hold at entry; after a
promotion they are re-checked against the session id, Python object identity
being faithfully proxied by the unique monotonically-assigned ids).  `now` is
the wall clock and `createOk` the stream-creation oracle for the
`_initiate_transition` call the `contentStart` branch can make; the Boolean
result is `true` when an uncaught exception leaves the method.
`last_output_time` (line 663) and the recorder renames of the
`completionStart` branch are dropped. -/
def process_event (st : ManagerState) (ev : MEvent) (now : Nat) (createOk : Bool) :
    ManagerState × List ManagerOutput × Bool :=
  match st.current_session with
  | none => (st, [], false)
  | some session =>
    if session.stream_manager.is_active = false then (st, [], false)
    else
      match ev with
      | MEvent.contentStart role ctype generationStage =>
        let session := { session with
          current_content_role := role
          current_content_type := ctype
          current_generation_stage := generationStage }
        let st := { st with current_session := some session }
        -- AUDIO contentStart from the assistant while waiting: start
        -- buffering and initiate the transition (lines 519-525)
        let r : ManagerState × Bool :=
          if st.waiting_for_audio_start ∧ ctype = some "AUDIO" ∧ role = some "ASSISTANT" then
            initiate_transition { st with is_buffering := true } now createOk
          else (st, false)
        if r.2 then (r.1, [], true)
        else
          let st := r.1
          -- USER contentStart during monitoring: barge-in (lines 527-534)
          if role = some "USER" ∧ st.is_transitioning ∧
              st.next_session.map (fun n => n.received_completion_start) = some true then
            match st.current_session with
            | some session =>
              ({ st with
                  current_session := some { session with barge_in_detected := true }
                  barge_in_occurred := true }, [], false)
            | none => (st, [], false)
          else (st, [], false)
      | MEvent.completionStart model_session_id =>
        -- lines 536-545 (recording rename dropped)
        if model_session_id.isSome ∧ session.model_session_id = none then
          let session := { session with model_session_id := model_session_id }
          ({ st with current_session := some session }, [], false)
        else (st, [], false)
      | MEvent.textOutput content role =>
        if interruptedMarker.data <:+: content.data then
          -- barge-in detected (lines 553-568): clear the audio output queue
          let sm := { session.stream_manager with audio_output_queue := ([] : List AudioChunk) }
          let session := { session with barge_in_detected := true, stream_manager := sm }
          let st := { st with current_session := some session }
          let st := if st.is_transitioning then { st with barge_in_occurred := true } else st
          (st, [], false)
        else
          -- USER speech during transition (lines 571-583)
          let st :=
            if st.user_during_transition role content then
              let st := { st with user_was_speaking := true }
              if st.barge_in_occurred then st else { st with barge_in_occurred := true }
            else st
          let forced := decide (st.forced_completion session role content)
          -- conversation tracking (lines 589-643): during a transition USER
          -- text is only accepted from next_session, and this session is
          -- current_session, so is_relevant is false exactly then
          if st.is_relevant_session role ∧ (role = "USER" ∨ role = "ASSISTANT") ∧
              content ≠ "" then
            if role = "USER" then
              -- always add USER messages (lines 597-619)
              let hist := st.conversation_history.add_message (utf8Encode role)
                (utf8Encode content) "text" now
              let st := { st with conversation_history := hist.1 }
              -- count-sync after a pre-transition barge-in (lines 604-609)
              let session :=
                if st.barge_in_count_sync session then
                  { session with final_text_count := session.speculative_text_count }
                else session
              runForced { st with current_session := some session } [] forced
            else
              -- ASSISTANT text by generation stage (lines 621-643)
              if session.current_generation_stage = some "SPECULATIVE" then
                let session := { session with
                  speculative_text_count := session.speculative_text_count + 1 }
                runForced { st with current_session := some session } [] forced
              else if session.current_generation_stage = some "FINAL" then
                let session := { session with
                  final_text_count := session.final_text_count + 1
                  received_final_text := true }
                let hist := st.conversation_history.add_message (utf8Encode role)
                  (utf8Encode content) "text" now
                let st := { st with
                  current_session := some session
                  conversation_history := hist.1 }
                -- completion signal: text pairs matched (lines 637-643)
                if completion_signal st session then
                  let r := send_history_and_start_audio st
                  runForced r.1 r.2 forced
                else runForced st [] forced
              else runForced st [] forced
          else runForced st [] forced
      | MEvent.contentEnd ctype stopReason =>
        -- completion signal: TEXT INTERRUPTED (lines 645-654)
        let r :=
          if ctype = some "TEXT" ∧ stopReason = some "INTERRUPTED" ∧
              st.waiting_for_completion then
            send_history_and_start_audio st
          else (st, [])
        let st := r.1
        -- stage reset only while this session is still current (lines 656-658)
        let st :=
          match st.current_session with
          | some cur =>
            if cur.session_id = session.session_id then
              let cur := { cur with
                current_generation_stage := (none : Option String)
                current_content_role := (none : Option String) }
              { st with current_session := some cur }
            else st
          | none => st
        (st, r.2, false)
      | MEvent.other => (st, [], false)

/-- The audio-start-timeout test of lines 467-469 at time `now`. -/
def audio_start_timed_out (st : ManagerState) (now : Nat) : Bool :=
  st.waiting_for_audio_start &&
    match st.audio_start_wait_start with
    | some t0 =>
      decide ((st.transition_config.audio_start_timeout_seconds : Int) <
        (now : Int) - (t0 : Int))
    | none => false

/-- One iteration of the `_monitor_events` while-loop (lines 449-491) at time
`now`, processing at most one polled event.  The `except` at line 489 swallows
any exception raised inside the iteration, which makes the step total. -/
def monitor_step (st : ManagerState) (now : Nat) (ev : Option MEvent) (createOk : Bool) :
    ManagerState × List ManagerOutput :=
  match st.current_session with
  | none => (st, [])
  | some cur =>
    if cur.state = SessionState.closed then (st, [])
    else
      -- duration threshold (lines 457-465)
      let st :=
        if cur.should_transition now st.transition_config.transition_threshold_seconds ∧
            ¬st.is_transitioning ∧ ¬st.waiting_for_audio_start then
          { st with waiting_for_audio_start := true, audio_start_wait_start := some now }
        else st
      -- audio-start timeout forces the transition (lines 467-472)
      let r : ManagerState × Bool :=
        if st.audio_start_timed_out now then
          initiate_transition { st with is_buffering := true } now createOk
        else (st, false)
      if r.2 then (r.1, [])
      else
        match ev with
        | none => (r.1, [])
        | some e =>
          let p := process_event r.1 e now createOk
          (p.1, p.2.1)

/-- One trace step: wall-clock time, at most one polled event, and the
stream-creation oracle for any `create_session` this iteration performs. -/
structure TraceStep where
  now : Nat
  event : Option MEvent
  createOk : Bool
deriving DecidableEq, Repr

/-- Fold `monitor_step` over a whole trace. -/
def run_trace (st : ManagerState) (steps : List TraceStep) : ManagerState :=
  steps.foldl (fun st s => (monitor_step st s.now s.event s.createOk).1) st

/-- A concrete configuration used by concrete executions below: 5s transition
threshold, 1s audio buffer, 5s audio-start timeout. -/
def cfg0 : TransitionConfig :=
  { transition_threshold_seconds := 5
    audio_buffer_duration_seconds := 1
    audio_start_timeout_seconds := 5
    next_session_ready_timeout_seconds := 30
    max_single_message_bytes := 1024
    max_chat_history_bytes := 40960 }

/-- A concrete execution: the duration threshold is reached at `t = 6`; an
assistant AUDIO `contentStart` triggers the transition (creating next session
1, whose stream never delivers a `completionStart` acknowledgment); one
SPECULATIVE and one matching FINAL assistant text then fire the completion
signal. -/
def trace0 : List TraceStep :=
  [ { now := 6
      event := some (MEvent.contentStart (some "ASSISTANT") (some "AUDIO") none)
      createOk := true }
  , { now := 7
      event := some (MEvent.contentStart (some "ASSISTANT") (some "TEXT") (some "SPECULATIVE"))
      createOk := true }
  , { now := 7
      event := some (MEvent.textOutput "Hello there" "ASSISTANT")
      createOk := true }
  , { now := 8
      event := some (MEvent.contentStart (some "ASSISTANT") (some "TEXT") (some "FINAL"))
      createOk := true }
  , { now := 8
      event := some (MEvent.textOutput "Hello there" "ASSISTANT")
      createOk := true } ]

/-- A concrete mid-transition state: session 0 current, session 1 (created at
`t = 6`, no acknowledgment received yet) next, completion signal awaited. -/
def c1_state : ManagerState :=
  { initial_manager cfg0 0 with
    next_session := some (mk_session 1 6)
    is_transitioning := true
    waiting_for_completion := true }

/-- A concrete state waiting for the assistant audio start since `t = 6`. -/
def c8_state : ManagerState :=
  { initial_manager cfg0 0 with
    waiting_for_audio_start := true
    audio_start_wait_start := some 6 }

end ManagerState

end NovaSamples


/-! ## Supporting lemmas -/

namespace NovaSamples

namespace AudioBuffer

theorem sumLens_nil : sumLens [] = 0 := rfl

theorem sumLens_cons (c : AudioChunk) (l : List AudioChunk) :
    sumLens (c :: l) = c.length + sumLens l := by
  simp [sumLens]

theorem sumLens_append (l₁ l₂ : List AudioChunk) :
    sumLens (l₁ ++ l₂) = sumLens l₁ + sumLens l₂ := by
  simp [sumLens]

theorem evictLoop_spec (m : Nat) :
    ∀ (l : List AudioChunk) (t : Nat), t = sumLens l →
      (evictLoop m l t).2 = sumLens (evictLoop m l t).1 ∧
      (evictLoop m l t).2 ≤ m ∧ (evictLoop m l t).1 <:+ l
  | [], t, h => by
    simp only [evictLoop, sumLens_nil] at h ⊢
    exact ⟨h, by omega, List.nil_suffix⟩
  | c :: rest, t, h => by
    rw [sumLens_cons] at h
    simp only [evictLoop]
    split
    · have hr := evictLoop_spec m rest (t - c.length) (by omega)
      exact ⟨hr.1, hr.2.1, hr.2.2.trans (List.suffix_cons c rest)⟩
    · refine ⟨by rw [h, sumLens_cons], by omega, List.suffix_refl _⟩

theorem add_chunk_fields (b : AudioBuffer) (c : AudioChunk) :
    (b.add_chunk c).max_buffer_size = b.max_buffer_size := rfl

theorem add_chunk_spec (b : AudioBuffer) (c : AudioChunk)
    (h : b.total_size = sumLens b.buffer) :
    (b.add_chunk c).total_size = sumLens (b.add_chunk c).buffer ∧
    (b.add_chunk c).total_size ≤ b.max_buffer_size ∧
    (b.add_chunk c).buffer <:+ b.buffer ++ [c] := by
  have hsum : b.total_size + c.length = sumLens (b.buffer ++ [c]) := by
    rw [sumLens_append, sumLens_cons, sumLens_nil, h]; omega
  have := evictLoop_spec b.max_buffer_size (b.buffer ++ [c])
    (b.total_size + c.length) hsum
  exact this

theorem add_all_inv :
    ∀ (cs : List AudioChunk) (b : AudioBuffer) (pre : List AudioChunk),
      b.total_size = sumLens b.buffer → b.total_size ≤ b.max_buffer_size →
      b.buffer <:+ pre →
      (add_all b cs).total_size = sumLens (add_all b cs).buffer ∧
      (add_all b cs).total_size ≤ b.max_buffer_size ∧
      (add_all b cs).buffer <:+ pre ++ cs ∧
      (add_all b cs).max_buffer_size = b.max_buffer_size
  | [], b, pre, h1, h2, h3 => by
    simp only [add_all, List.foldl_nil, List.append_nil]
    exact ⟨h1, h2, h3, trivial⟩
  | c :: cs, b, pre, h1, h2, h3 => by
    have hstep := add_chunk_spec b c h1
    have hsuf : (b.add_chunk c).buffer <:+ pre ++ [c] := by
      refine hstep.2.2.trans ?_
      obtain ⟨t, ht⟩ := h3
      exact ⟨t, by rw [← List.append_assoc, ht]⟩
    have := add_all_inv cs (b.add_chunk c) (pre ++ [c]) hstep.1
      (by rw [add_chunk_fields]; exact hstep.2.1) hsuf
    simp only [add_all, List.foldl_cons] at this ⊢
    rw [add_chunk_fields] at this
    have hfix : (pre ++ [c]) ++ cs = pre ++ c :: cs := by simp
    exact ⟨this.1, this.2.1, hfix ▸ this.2.2.1, this.2.2.2⟩

theorem evictLoop_drain (m : Nat) (c : AudioChunk) (hc : m < c.length) :
    ∀ (l : List AudioChunk) (t : Nat), t = sumLens (l ++ [c]) →
      evictLoop m (l ++ [c]) t = ([], 0)
  | [], t, h => by
    rw [List.nil_append, sumLens_cons, sumLens_nil] at h
    simp only [List.nil_append, evictLoop, if_pos (by omega : m < t)]
    rw [show t - c.length = 0 by omega]
  | a :: l, t, h => by
    rw [List.cons_append, sumLens_cons] at h
    have hge : c.length ≤ sumLens (l ++ [c]) := by
      rw [sumLens_append, sumLens_cons, sumLens_nil]; omega
    rw [List.cons_append]
    simp only [evictLoop, if_pos (by omega : m < t)]
    exact evictLoop_drain m c hc l (t - a.length) (by omega)

end AudioBuffer

end NovaSamples

namespace NovaSamples

theorem utf8CleanFuel_length_le :
    ∀ (f : Nat) (l : List Nat), (utf8CleanFuel f l).length ≤ l.length
  | 0, l => by simp [utf8CleanFuel]
  | _ + 1, [] => by simp [utf8CleanFuel]
  | f + 1, b :: rest => by
    have ih := utf8CleanFuel_length_le f ((b :: rest).drop (utf8Next (b :: rest)).1)
    rw [List.length_drop] at ih
    simp only [utf8CleanFuel]
    split
    · rw [List.length_append, List.length_take]
      omega
    · omega

theorem utf8Clean_length_le (l : List Nat) : (utf8Clean l).length ≤ l.length :=
  utf8CleanFuel_length_le l.length l

theorem truncation_marker_length : truncation_marker.length = 15 := by decide

theorem pySliceTo_length_le (c : List Nat) (k : Int) (hk : 0 ≤ k) :
    (pySliceTo c k).length ≤ k.toNat := by
  unfold pySliceTo
  rw [if_pos hk, List.length_take]
  omega

theorem truncateContent_spec (maxS : Nat) (h15 : 15 ≤ maxS) (c : List Nat) :
    (truncateContent maxS c).length ≤ maxS ∧
    truncation_marker <:+ truncateContent maxS c := by
  constructor
  · unfold truncateContent
    rw [List.length_append]
    have hm := truncation_marker_length
    have hclean := utf8Clean_length_le
      (pySliceTo c ((maxS : Int) - (truncation_marker.length : Int)))
    have hsl := pySliceTo_length_le c
      ((maxS : Int) - (truncation_marker.length : Int)) (by omega)
    omega
  · exact ⟨_, rfl⟩

theorem storedMessage_content_le (maxS : Nat) (h15 : 15 ≤ maxS)
    (r c : List Nat) (ty : String) (n : Nat) :
    (storedMessage maxS r c ty n).content.length ≤ maxS := by
  unfold storedMessage
  dsimp only
  split
  · exact (truncateContent_spec maxS h15 c).1
  · omega

theorem trim_total_le (cap : Nat) :
    ∀ msgs, _get_total_size_bytes (_trim_history cap msgs) ≤ cap
  | [] => by simp [_trim_history, _get_total_size_bytes]
  | m :: rest => by
    simp only [_trim_history]
    split
    · exact trim_total_le cap rest
    · omega

theorem trim_suffix (cap : Nat) :
    ∀ msgs, _trim_history cap msgs <:+ msgs
  | [] => List.nil_suffix
  | m :: rest => by
    simp only [_trim_history]
    split
    · exact (trim_suffix cap rest).trans (List.suffix_cons m rest)
    · exact List.suffix_refl _

end NovaSamples

namespace NovaSamples.ConversationHistory

theorem add_message_messages (h : ConversationHistory) (r c : List Nat)
    (ty : String) (n : Nat) :
    (h.add_message r c ty n).1.messages =
      _trim_history h.max_chat_history_bytes
        (h.messages ++ [storedMessage h.max_single_message_bytes r c ty n]) := rfl

theorem add_messages_inv (maxS maxC : Nat) (h15 : 15 ≤ maxS) :
    ∀ (l : List AddInput) (h : ConversationHistory) (pre : List AddInput),
      h.max_single_message_bytes = maxS → h.max_chat_history_bytes = maxC →
      (∀ m ∈ h.messages, m.content.length ≤ maxS) →
      _get_total_size_bytes h.messages ≤ maxC →
      h.messages <:+
        pre.map (fun a => storedMessage maxS a.role a.content a.message_type a.now) →
      (∀ m ∈ (add_messages h l).messages, m.content.length ≤ maxS) ∧
      _get_total_size_bytes (add_messages h l).messages ≤ maxC ∧
      (add_messages h l).messages <:+
        (pre ++ l).map (fun a => storedMessage maxS a.role a.content a.message_type a.now)
  | [], h, pre, _, _, hmem, htot, hsuf => by
    simp only [add_messages, List.foldl_nil, List.append_nil]
    exact ⟨hmem, htot, hsuf⟩
  | a :: l, h, pre, hS, hC, hmem, htot, hsuf => by
    have hmsgs : (h.add_message a.role a.content a.message_type a.now).1.messages =
        _trim_history maxC (h.messages ++
          [storedMessage maxS a.role a.content a.message_type a.now]) := by
      rw [add_message_messages, hS, hC]
    have hmem' : ∀ m ∈ (h.add_message a.role a.content a.message_type a.now).1.messages,
        m.content.length ≤ maxS := by
      intro m hm
      rw [hmsgs] at hm
      have hm2 := (trim_suffix maxC _).mem hm
      rcases List.mem_append.mp hm2 with h1 | h2
      · exact hmem m h1
      · rw [List.mem_singleton.mp h2]
        exact storedMessage_content_le maxS h15 a.role a.content a.message_type a.now
    have htot' : _get_total_size_bytes
        (h.add_message a.role a.content a.message_type a.now).1.messages ≤ maxC := by
      rw [hmsgs]; exact trim_total_le maxC _
    have hsuf' : (h.add_message a.role a.content a.message_type a.now).1.messages <:+
        (pre ++ [a]).map (fun a => storedMessage maxS a.role a.content a.message_type a.now) := by
      rw [hmsgs]
      refine (trim_suffix maxC _).trans ?_
      rw [List.map_append, List.map_singleton]
      obtain ⟨t, ht⟩ := hsuf
      exact ⟨t, by rw [← List.append_assoc, ht]⟩
    have hrec := add_messages_inv maxS maxC h15 l
      (h.add_message a.role a.content a.message_type a.now).1 (pre ++ [a])
      hS hC hmem' htot' hsuf'
    simp only [add_messages, List.foldl_cons] at hrec ⊢
    have hfix : (pre ++ [a]) ++ l = pre ++ a :: l := by simp
    rw [hfix] at hrec
    exact hrec

end NovaSamples.ConversationHistory

namespace NovaSamples.NovaResponseParser

theorem join_foldl_data (l : List String) :
    ∀ s : String, (l.foldl (· ++ ·) s).data = s.data ++ (l.map String.data).flatten := by
  induction l with
  | nil => intro s; simp
  | cons a l ih =>
    intro s
    simp only [List.foldl_cons, List.map_cons, List.flatten_cons]
    rw [ih (s ++ a), String.data_append, List.append_assoc]

theorem join_data (l : List String) :
    (String.join l).data = (l.map String.data).flatten := by
  have := join_foldl_data l ""
  simpa [String.join] using this

theorem join_append (l₁ l₂ : List String) :
    String.join (l₁ ++ l₂) = String.join l₁ ++ String.join l₂ := by
  apply String.ext
  simp [join_data, String.data_append]

theorem join_cons (a : String) (l : List String) :
    String.join (a :: l) = a ++ String.join l := by
  apply String.ext
  simp [join_data, String.data_append]

theorem join_singleton (a : String) : String.join [a] = a := by
  apply String.ext
  simp [join_data]

theorem startTok_eq (p : NovaResponseParser) :
    p.startTok = '<' :: (p.target_tag_name.data ++ ['>']) := by
  unfold startTok
  simp [String.data_append]

theorem endTok_eq (p : NovaResponseParser) :
    p.endTok = '<' :: '/' :: (p.target_tag_name.data ++ ['>']) := by
  unfold endTok
  simp [String.data_append]

theorem startTok_ne_nil (p : NovaResponseParser) : p.startTok ≠ [] := by
  rw [startTok_eq]; simp

theorem endTok_ne_nil (p : NovaResponseParser) : p.endTok ≠ [] := by
  rw [endTok_eq]; simp

theorem endTok_ne_startTok (p : NovaResponseParser) : p.endTok ≠ p.startTok := by
  rw [startTok_eq, endTok_eq]
  intro h
  have := congrArg List.length h
  simp at this

end NovaSamples.NovaResponseParser

namespace NovaSamples.NovaResponseParser

theorem scanChar_target (p : NovaResponseParser) (c : Char) :
    (p.scanChar c).target_tag_name = p.target_tag_name := by
  unfold scanChar
  dsimp only
  repeat first | rfl | split

theorem scanChar_chunks (p : NovaResponseParser) (c : Char) :
    (p.scanChar c).text_chunks = p.text_chunks := by
  unfold scanChar
  dsimp only
  repeat first | rfl | split

theorem scanChar_startTok (p : NovaResponseParser) (c : Char) :
    (p.scanChar c).startTok = p.startTok := by
  unfold startTok
  rw [scanChar_target]

theorem scanChar_endTok (p : NovaResponseParser) (c : Char) :
    (p.scanChar c).endTok = p.endTok := by
  unfold endTok
  rw [scanChar_target]

theorem scanChars_target (cs : List Char) :
    ∀ p : NovaResponseParser, (p.scanChars cs).target_tag_name = p.target_tag_name := by
  induction cs with
  | nil => intro p; rfl
  | cons c cs ih =>
    intro p
    show ((p.scanChar c).scanChars cs).target_tag_name = _
    rw [ih, scanChar_target]

theorem scanChars_chunks (cs : List Char) :
    ∀ p : NovaResponseParser, (p.scanChars cs).text_chunks = p.text_chunks := by
  induction cs with
  | nil => intro p; rfl
  | cons c cs ih =>
    intro p
    show ((p.scanChar c).scanChars cs).text_chunks = _
    rw [ih, scanChar_chunks]

end NovaSamples.NovaResponseParser

namespace NovaSamples.NovaResponseParser

theorem scanChar_inv (p : NovaResponseParser) (s : List Char) (c : Char)
    (h : p.ScanInv s) (hinf : ¬(p.startTok <:+: (s ++ [c]))) :
    (p.scanChar c).ScanInv (s ++ [c]) := by
  obtain ⟨h1, h2, h3, h4⟩ := h
  unfold scanChar
  dsimp only
  by_cases hlt : c = '<'
  · subst hlt
    rw [if_pos rfl]
    cases hIT : p.inside_tag <;> simp only [hIT, Bool.false_eq_true, if_false, if_true]
    · refine ⟨h1, h2, ?_, ?_⟩
      · intro _
        exact ⟨⟨[], rfl⟩, ⟨s, rfl⟩⟩
      · intro hh
        exact nomatch hh
    · refine ⟨h1, h2, ?_, ?_⟩
      · intro _
        exact ⟨⟨[], rfl⟩, ⟨s, rfl⟩⟩
      · intro hh
        exact nomatch hh
  · rw [if_neg hlt]
    by_cases hgt : c = '>'
    · subst hgt
      rw [if_pos rfl]
      cases hIT : p.inside_tag <;> simp only [hIT, Bool.false_eq_true, if_false, if_true]
      · -- not inside a tag: the stale tag buffer is [] or the end token
        rcases h4 hIT with htag | htag
        · rw [htag]
          rw [if_neg (fun hh => startTok_ne_nil p hh.symm)]
          rw [if_neg (fun hh => endTok_ne_nil p hh.symm)]
          refine ⟨h1, h2, ?_, ?_⟩
          · intro hh
            exact nomatch hh
          · intro _
            exact Or.inl rfl
        · rw [htag]
          rw [if_neg (endTok_ne_startTok p)]
          rw [if_pos rfl]
          refine ⟨h1, rfl, ?_, ?_⟩
          · intro hh
            exact nomatch hh
          · intro _
            exact Or.inr rfl
      · -- inside a tag: the buffer extended with '>' is a suffix of s ++ ['>']
        obtain ⟨⟨t, htag⟩, hsuf⟩ := h3 hIT
        have hsuf2 : p.tag ++ ['>'] <:+ s ++ ['>'] := by
          obtain ⟨u, hu⟩ := hsuf
          exact ⟨u, by rw [← List.append_assoc, hu]⟩
        have hnstart : ¬(p.tag ++ ['>'] = p.startTok) := by
          intro hh
          exact hinf (hh ▸ hsuf2.isInfix)
        rw [if_neg hnstart]
        by_cases hend : p.tag ++ ['>'] = p.endTok
        · rw [if_pos hend]
          refine ⟨h1, rfl, ?_, ?_⟩
          · intro hh
            exact nomatch hh
          · intro _
            exact Or.inr hend
        · rw [if_neg hend]
          refine ⟨h1, h2, ?_, ?_⟩
          · intro hh
            exact nomatch hh
          · intro _
            exact Or.inl rfl
    · rw [if_neg hgt]
      cases hIT : p.inside_tag <;> simp only [hIT, Bool.false_eq_true, if_false, if_true]
      · refine ⟨h1, h2, ?_, ?_⟩
        · intro hh
          exact nomatch hIT.symm.trans hh
        · intro _
          exact h4 hIT
      · obtain ⟨⟨t, htag⟩, hsuf⟩ := h3 hIT
        refine ⟨h1, h2, ?_, ?_⟩
        · intro _
          refine ⟨⟨t ++ [c], by rw [htag]; simp⟩, ?_⟩
          obtain ⟨u, hu⟩ := hsuf
          exact ⟨u, by rw [← List.append_assoc, hu]⟩
        · intro hh
          exact nomatch hh

end NovaSamples.NovaResponseParser

namespace NovaSamples.NovaResponseParser

theorem scanChars_inv :
    ∀ (cs : List Char) (p : NovaResponseParser) (s : List Char),
      p.ScanInv s → ¬(p.startTok <:+: (s ++ cs)) →
      (p.scanChars cs).ScanInv (s ++ cs)
  | [], p, s, h, _ => by simpa [scanChars] using h
  | c :: cs, p, s, h, hinf => by
    have hstep := scanChar_inv p s c h
      (fun hi => hinf (hi.trans (List.IsPrefix.isInfix ⟨cs, by simp⟩)))
    have h2 : ¬((p.scanChar c).startTok <:+: ((s ++ [c]) ++ cs)) := by
      rw [scanChar_startTok]
      intro hi
      exact hinf (by simpa [List.append_assoc] using hi)
    have hrec := scanChars_inv cs (p.scanChar c) (s ++ [c]) hstep h2
    show ((p.scanChar c).scanChars cs).ScanInv (s ++ c :: cs)
    have heq : (s ++ [c]) ++ cs = s ++ c :: cs := by simp
    rw [← heq]
    exact hrec

theorem reset_inv (p : NovaResponseParser) (s : List Char) : p.reset.ScanInv s := by
  refine ⟨rfl, rfl, ?_, ?_⟩
  · intro hh
    exact nomatch hh
  · intro _
    exact Or.inl rfl

theorem process_chunk_core_spec (p : NovaResponseParser) (f : String)
    (hInv : p.ScanInv (String.join p.text_chunks).data)
    (hinf : ¬(p.startTok <:+: ((String.join p.text_chunks).data ++ f.data))) :
    (p.process_chunk_core f).1.ScanInv
        (String.join (p.process_chunk_core f).1.text_chunks).data ∧
    (p.process_chunk_core f).1.target_tag_name = p.target_tag_name ∧
    ((p.process_chunk_core f).1.inside_tag = false →
      (p.process_chunk_core f).1.text_chunks = []) ∧
    (((p.process_chunk_core f).2 = some (String.join (p.text_chunks ++ [f])) ∧
        (p.process_chunk_core f).1.text_chunks = []) ∨
      ((p.process_chunk_core f).2 = none ∧
        (p.process_chunk_core f).1.text_chunks = p.text_chunks ++ [f])) := by
  have hscan := scanChars_inv f.data
    { p with text_chunks := p.text_chunks ++ [f] }
    (String.join p.text_chunks).data hInv hinf
  obtain ⟨i1, i2, i3, i4⟩ := hscan
  have hchunks :
      ({ p with text_chunks := p.text_chunks ++ [f] }.scanChars f.data).text_chunks
        = p.text_chunks ++ [f] := scanChars_chunks f.data _
  have htarget :
      ({ p with text_chunks := p.text_chunks ++ [f] }.scanChars f.data).target_tag_name
        = p.target_tag_name := scanChars_target f.data _
  have hjoin : (String.join (p.text_chunks ++ [f])).data
      = (String.join p.text_chunks).data ++ f.data := by
    rw [join_append, join_singleton, String.data_append]
  unfold process_chunk_core
  dsimp only
  cases hI : ({ p with text_chunks := p.text_chunks ++ [f] }.scanChars f.data).inside_tag
  · simp only [i1, i2, hI]
    rw [if_neg (fun hh => nomatch hh.1)]
    rw [if_pos (And.intro (fun hh => nomatch hh) (fun hh => nomatch hh))]
    refine ⟨reset_inv _ _, htarget, fun _ => rfl, Or.inl ⟨?_, rfl⟩⟩
    rw [hchunks]
  · simp only [i1, i2, hI]
    rw [if_neg (fun hh => nomatch hh.1)]
    rw [if_neg (fun hh => hh.2 trivial)]
    refine ⟨?_, htarget, ?_, Or.inr ⟨rfl, hchunks⟩⟩
    · rw [hchunks, hjoin]
      exact ⟨i1, i2, i3, i4⟩
    · intro hh
      rw [hh] at hI
      exact nomatch hI

end NovaSamples.NovaResponseParser

namespace NovaSamples.NovaResponseParser

theorem startTok_congr {q p : NovaResponseParser}
    (h : q.target_tag_name = p.target_tag_name) : q.startTok = p.startTok := by
  unfold startTok
  rw [h]

theorem run_chunks_cons_fst (p : NovaResponseParser) (f : String) (fs : List String) :
    (p.run_chunks (f :: fs)).1 = ((p.process_chunk_core f).1.run_chunks fs).1 := rfl

theorem run_chunks_cons_snd (p : NovaResponseParser) (f : String) (fs : List String) :
    (p.run_chunks (f :: fs)).2
      = (p.process_chunk_core f).2 :: ((p.process_chunk_core f).1.run_chunks fs).2 := rfl

theorem flushedText_cons_some (t : String) (outs : List (Option String)) :
    flushedText (some t :: outs) = t ++ flushedText outs := by
  unfold flushedText
  rw [show List.filterMap id (some t :: outs) = t :: List.filterMap id outs by
    simp [List.filterMap_cons]]
  exact join_cons t _

theorem flushedText_cons_none (outs : List (Option String)) :
    flushedText (none :: outs) = flushedText outs := by
  unfold flushedText
  rw [show List.filterMap id (none :: outs) = List.filterMap id outs by
    simp [List.filterMap_cons]]

theorem run_chunks_spec :
    ∀ (fs : List String) (p : NovaResponseParser),
      p.ScanInv (String.join p.text_chunks).data →
      (p.inside_tag = false → p.text_chunks = []) →
      ¬(p.startTok <:+: ((String.join p.text_chunks).data ++ (String.join fs).data)) →
      (flushedText (p.run_chunks fs).2).data ++
          (String.join (p.run_chunks fs).1.text_chunks).data
        = (String.join p.text_chunks).data ++ (String.join fs).data ∧
      ((p.run_chunks fs).1.inside_tag = false → (p.run_chunks fs).1.text_chunks = [])
  | [], p, _, hempty, _ => by
    refine ⟨?_, hempty⟩
    simp [flushedText, String.join, run_chunks]
  | f :: fs, p, hInv, _, hinf => by
    have hsplit : (String.join (f :: fs)).data = f.data ++ (String.join fs).data := by
      rw [join_cons, String.data_append]
    have hinf1 : ¬(p.startTok <:+: ((String.join p.text_chunks).data ++ f.data)) := by
      intro hi
      refine hinf (hi.trans (List.IsPrefix.isInfix ⟨(String.join fs).data, ?_⟩))
      rw [hsplit, List.append_assoc]
    have hcall := process_chunk_core_spec p f hInv hinf1
    obtain ⟨hq, htgt, hqempty, hout⟩ := hcall
    have hjoin1 : (String.join (p.text_chunks ++ [f])).data
        = (String.join p.text_chunks).data ++ f.data := by
      rw [join_append, join_singleton, String.data_append]
    rcases hout with ⟨hsome, hchz⟩ | ⟨hnone, hchz⟩
    · -- this call flushed and reset
      have hinf2 : ¬((p.process_chunk_core f).1.startTok <:+:
          ((String.join (p.process_chunk_core f).1.text_chunks).data ++
            (String.join fs).data)) := by
        rw [startTok_congr htgt, hchz]
        intro hi
        refine hinf (hi.trans ?_)
        refine List.IsSuffix.isInfix ⟨(String.join p.text_chunks).data ++ f.data, ?_⟩
        rw [hsplit]
        simp [String.join]
      have ih := run_chunks_spec fs (p.process_chunk_core f).1 hq
        (fun _ => hchz) hinf2
      rw [hchz] at ih
      refine ⟨?_, ih.2⟩
      rw [run_chunks_cons_snd, run_chunks_cons_fst, hsome,
        flushedText_cons_some, String.data_append, hsplit]
      have := ih.1
      rw [show (String.join ([] : List String)).data = [] from rfl] at this
      rw [List.nil_append] at this
      rw [List.append_assoc, this, hjoin1, List.append_assoc]
    · -- this call buffered
      have hinf2 : ¬((p.process_chunk_core f).1.startTok <:+:
          ((String.join (p.process_chunk_core f).1.text_chunks).data ++
            (String.join fs).data)) := by
        rw [startTok_congr htgt, hchz, hjoin1]
        intro hi
        refine hinf ?_
        rw [hsplit, ← List.append_assoc]
        exact hi
      have ih := run_chunks_spec fs (p.process_chunk_core f).1 hq
        (fun hfalse => absurd (hqempty hfalse) (by rw [hchz]; simp)) hinf2
      refine ⟨?_, ih.2⟩
      rw [run_chunks_cons_snd, run_chunks_cons_fst, hnone, flushedText_cons_none, hsplit]
      have := ih.1
      rw [hchz, hjoin1] at this
      rw [this, List.append_assoc]

end NovaSamples.NovaResponseParser

namespace NovaSamples.NovaResponseParser

theorem scanChar_no_gt (p : NovaResponseParser) (c : Char) (hgt : c ≠ '>') :
    (p.scanChar c).is_found_target_start_tag = p.is_found_target_start_tag ∧
    (p.scanChar c).is_found_target_end_tag = p.is_found_target_end_tag ∧
    (p.scanChar c).inside_tag_content = p.inside_tag_content ∧
    ((p.scanChar c).inside_tag = true ↔ (c = '<' ∨ p.inside_tag = true)) := by
  unfold scanChar
  dsimp only
  by_cases hlt : c = '<' <;> cases hIT : p.inside_tag <;>
    simp [hlt, hgt, hIT]

theorem scanChars_no_gt :
    ∀ (cs : List Char) (p : NovaResponseParser), '>' ∉ cs →
      (p.scanChars cs).is_found_target_start_tag = p.is_found_target_start_tag ∧
      (p.scanChars cs).is_found_target_end_tag = p.is_found_target_end_tag ∧
      (p.scanChars cs).inside_tag_content = p.inside_tag_content ∧
      ((p.scanChars cs).inside_tag = true ↔ ('<' ∈ cs ∨ p.inside_tag = true))
  | [], p, _ => by
    exact ⟨rfl, rfl, rfl, by simp [scanChars]⟩
  | c :: cs, p, hgt => by
    have hc : c ≠ '>' := fun hh => hgt (hh ▸ List.mem_cons_self c cs)
    have hstep := scanChar_no_gt p c hc
    have hrec := scanChars_no_gt cs (p.scanChar c)
      (fun hh => hgt (List.mem_cons_of_mem c hh))
    have hunfold : p.scanChars (c :: cs) = (p.scanChar c).scanChars cs := rfl
    rw [hunfold]
    refine ⟨hrec.1.trans hstep.1, hrec.2.1.trans hstep.2.1,
      hrec.2.2.1.trans hstep.2.2.1, ?_⟩
    rw [hrec.2.2.2, hstep.2.2.2]
    constructor
    · rintro (h | h)
      · exact Or.inl (List.mem_cons_of_mem c h)
      · rcases h with h | h
        · exact Or.inl (h ▸ List.mem_cons_self c cs)
        · exact Or.inr h
    · rintro (h | h)
      · rcases List.mem_cons.mp h with h | h
        · exact Or.inr (Or.inl h.symm)
        · exact Or.inl h
      · exact Or.inr (Or.inr h)

theorem process_chunk_core_buffering (p : NovaResponseParser) (f : String)
    (h1 : p.is_found_target_start_tag = false)
    (h2 : p.is_found_target_end_tag = false)
    (h3 : p.inside_tag_content = false)
    (hgt : '>' ∉ f.data)
    (hin : p.inside_tag = true ∨ '<' ∈ f.data) :
    (p.process_chunk_core f).2 = none ∧
    (p.process_chunk_core f).1.is_found_target_start_tag = false ∧
    (p.process_chunk_core f).1.is_found_target_end_tag = false ∧
    (p.process_chunk_core f).1.inside_tag_content = false ∧
    (p.process_chunk_core f).1.inside_tag = true := by
  have hscan := scanChars_no_gt f.data { p with text_chunks := p.text_chunks ++ [f] } hgt
  have hinside : ({ p with text_chunks := p.text_chunks ++ [f] }.scanChars f.data).inside_tag
      = true := by
    rw [hscan.2.2.2]
    rcases hin with h | h
    · exact Or.inr h
    · exact Or.inl h
  unfold process_chunk_core
  dsimp only
  rw [if_neg (fun hh => by
    rw [hscan.1, h1] at hh
    exact nomatch hh.1)]
  rw [if_neg (fun hh => by
    rw [hinside] at hh
    exact hh.2 rfl)]
  exact ⟨rfl, hscan.1.trans h1, hscan.2.1.trans h2, hscan.2.2.1.trans h3, hinside⟩

theorem run_chunks_buffering :
    ∀ (fs : List String) (p : NovaResponseParser),
      p.is_found_target_start_tag = false →
      p.is_found_target_end_tag = false →
      p.inside_tag_content = false →
      p.inside_tag = true →
      (∀ f ∈ fs, '>' ∉ f.data) →
      ∀ o ∈ (p.run_chunks fs).2, o = none
  | [], _, _, _, _, _, _ => by
    intro o ho
    exact absurd ho (by simp [run_chunks])
  | f :: fs, p, h1, h2, h3, h4, hgt => by
    have hstep := process_chunk_core_buffering p f h1 h2 h3
      (hgt f (List.mem_cons_self f fs)) (Or.inl h4)
    intro o ho
    rw [run_chunks_cons_snd] at ho
    rcases List.mem_cons.mp ho with h | h
    · rw [h, hstep.1]
    · exact run_chunks_buffering fs (p.process_chunk_core f).1
        hstep.2.1 hstep.2.2.1 hstep.2.2.2.1 hstep.2.2.2.2
        (fun g hg => hgt g (List.mem_cons_of_mem f hg)) o h

end NovaSamples.NovaResponseParser

namespace NovaSamples.ManagerState

theorem close_old_waiting (st : ManagerState) :
    (st.close_old_session_and_promote).waiting_for_completion
      = st.waiting_for_completion := by
  rcases h1 : st.current_session with _ | c <;> rcases h2 : st.next_session with _ | n <;>
    simp [close_old_session_and_promote, h1, h2]

theorem close_old_next_or (st : ManagerState) :
    (st.close_old_session_and_promote).next_session = none ∨
      st.close_old_session_and_promote = st := by
  rcases h1 : st.current_session with _ | c <;> rcases h2 : st.next_session with _ | n <;>
    simp [close_old_session_and_promote, h1, h2]

theorem send_history_guard (st : ManagerState)
    (h : st.next_session = none ∨ st.waiting_for_completion = false) :
    st.send_history_and_start_audio = (st, []) := by
  unfold send_history_and_start_audio
  rw [if_pos h]

theorem send_history_post (st : ManagerState) :
    (st.send_history_and_start_audio).1.next_session = none ∨
      (st.send_history_and_start_audio).1.waiting_for_completion = false := by
  unfold send_history_and_start_audio
  by_cases h : st.next_session = none ∨ st.waiting_for_completion = false
  · rw [if_pos h]
    exact h
  · rw [if_neg h]
    rw [if_neg (fun hh => h (Or.inr hh))]
    dsimp only
    right
    rw [close_old_waiting]

theorem send_history_idem (st : ManagerState) :
    (st.send_history_and_start_audio).1.send_history_and_start_audio
      = ((st.send_history_and_start_audio).1, []) :=
  send_history_guard _ (send_history_post st)

end NovaSamples.ManagerState

namespace NovaSamples.ManagerState

theorem send_history_promotes (st : ManagerState) (s c : SessionInfo)
    (hn : st.next_session = some s) (hc : st.current_session = some c)
    (hw : st.waiting_for_completion = true) :
    (st.send_history_and_start_audio).1.current_session
        = some { s with audio_content_started := true } ∧
    (st.send_history_and_start_audio).1.next_session = none ∧
    (st.send_history_and_start_audio).1.is_transitioning = false := by
  unfold send_history_and_start_audio
  rw [if_neg (fun hh => by
    rcases hh with hh | hh
    · rw [hn] at hh
      exact nomatch hh
    · rw [hw] at hh
      exact nomatch hh)]
  rw [if_neg (fun hh => by rw [hw] at hh; exact nomatch hh)]
  dsimp only
  rw [hn]
  unfold close_old_session_and_promote
  dsimp only
  rw [hc]
  exact ⟨rfl, rfl, rfl⟩

end NovaSamples.ManagerState

namespace NovaSamples.ManagerState

theorem initiate_transition_failure (st : ManagerState) (now : Nat)
    (h : st.is_transitioning = false) :
    (st.initiate_transition now false).2 = true ∧
    (st.initiate_transition now false).1.is_transitioning = false ∧
    (st.initiate_transition now false).1.transition_ready = false ∧
    (st.initiate_transition now false).1.waiting_for_audio_start = false ∧
    (st.initiate_transition now false).1.waiting_for_completion = false ∧
    (st.initiate_transition now false).1.next_session = none ∧
    (st.initiate_transition now false).1.current_session = st.current_session := by
  unfold initiate_transition
  rw [if_neg (fun hh => by rw [h] at hh; exact nomatch hh)]
  exact ⟨rfl, rfl, rfl, rfl, rfl, rfl, rfl⟩

theorem monitor_step_create_failure (st : ManagerState) (now : Nat)
    (c : SessionInfo) (hc : st.current_session = some c)
    (hstate : ¬c.state = SessionState.closed)
    (hwait : st.waiting_for_audio_start = true)
    (htimeout : st.audio_start_timed_out now = true)
    (htrans : st.is_transitioning = false) :
    (st.monitor_step now none false).2 = [] ∧
    (st.monitor_step now none false).1.is_transitioning = false ∧
    (st.monitor_step now none false).1.transition_ready = false ∧
    (st.monitor_step now none false).1.waiting_for_audio_start = false ∧
    (st.monitor_step now none false).1.waiting_for_completion = false ∧
    (st.monitor_step now none false).1.next_session = none ∧
    (st.monitor_step now none false).1.current_session = some c := by
  unfold monitor_step
  rw [hc]
  dsimp only
  rw [if_neg hstate]
  simp only [hwait, htimeout, eq_self_iff_true, not_true, and_false, if_false,
    if_true, ite_self]
  refine ⟨trivial, ?_, ?_, ?_, ?_, ?_, ?_⟩
  · refine (initiate_transition_failure _ now ?_).2.1
    exact htrans
  · refine (initiate_transition_failure _ now ?_).2.2.1
    exact htrans
  · refine (initiate_transition_failure _ now ?_).2.2.2.1
    exact htrans
  · refine (initiate_transition_failure _ now ?_).2.2.2.2.1
    exact htrans
  · refine (initiate_transition_failure _ now ?_).2.2.2.2.2.1
    exact htrans
  · refine Eq.trans ((initiate_transition_failure _ now ?_).2.2.2.2.2.2) ?_
    · exact htrans
    · first
      | rfl
      | exact hc

theorem monitor_step_threshold_retry (st : ManagerState) (now : Nat)
    (c : SessionInfo) (hc : st.current_session = some c)
    (hstate : ¬c.state = SessionState.closed)
    (hsh : c.should_transition now st.transition_config.transition_threshold_seconds)
    (htrans : st.is_transitioning = false)
    (hwait : st.waiting_for_audio_start = false) :
    (st.monitor_step now none true).1.waiting_for_audio_start = true := by
  unfold monitor_step
  rw [hc]
  dsimp only
  rw [if_neg hstate]
  have hdec : ((st.transition_config.audio_start_timeout_seconds : Int) <
      (now : Int) - (now : Int)) = False := by
    apply eq_false
    omega
  simp only [hsh, htrans, hwait, eq_self_iff_true, not_true, not_false_iff,
    Bool.false_eq_true, and_true, true_and, and_false, false_and, if_true, if_false,
    not_false_eq_true, iff_true, audio_start_timed_out, Bool.true_and, hdec,
    decide_False, ite_self]

end NovaSamples.ManagerState

/-! ## Claim theorems -/

namespace NovaSamples

open NovaResponseParser in
/-- Claim C2: feeding the scanner configured with tag name "tag" the
two-fragment sequence ["<ta", "g>X</tag>Y"] yields exactly one callback
invocation, whose cleaned text is "Y": the split start token is recognized
across the fragment boundary and the whole <tag>X</tag> span is removed. -/
theorem claim_c2 :
    ((init "tag").run_chunks ["<ta", "g>X</tag>Y"]).2 = [none, some "Y"] ∧
    (((init "tag").run_chunks ["<ta", "g>X</tag>Y"]).2.filterMap id) = ["Y"] := by
  decide

open NovaResponseParser in
/-- Claim C3 (counterexample): the empty string is not rejected:
`process_chunk` on `some ""` succeeds, invoking the callback with the empty
accumulated text, whereas the claim demands an invalid-input error. -/
theorem claim_c3_counterexample :
    (init "tag").process_chunk (some "") = .ok (init "tag", some "") := by
  rfl

open NovaResponseParser in
/-- Claim C3 (amended): only a null (`None`) fragment is rejected, and that
invalid-input error propagates to the caller; the empty string is accepted
like any other fragment (processed and flushed, not an error). -/
theorem claim_c3 (p : NovaResponseParser) :
    p.process_chunk none = Except.error ParserError.invalidInput ∧
    p.process_chunk (some "") = Except.ok (p.process_chunk_core "") :=
  ⟨rfl, rfl⟩

open NovaResponseParser in
/-- Claim C4 (counterexample): with target tag "tag", feeding
["<x hello", " more"] yields None on both calls and never invokes the
callback, even though "<x" already cannot be a prefix of "<tag>" or
"</tag>": the scanner does not flush on an unambiguous mismatch. -/
theorem claim_c4_counterexample :
    ((init "tag").run_chunks ["<x hello", " more"]).2 = [none, none] ∧
    ((init "tag").run_chunks ["<x hello", " more"]).2.filterMap id = [] := by
  decide

open NovaResponseParser in
/-- Claim C4 (amended): after a '<' the scanner buffers every subsequent
character until a '>' arrives, regardless of whether the buffered run can
still become the start or end token; if no fragment ever contains '>', every
call from the one containing the '<' onward returns None and the callback is
never invoked (the scanner buffers indefinitely). -/
theorem claim_c4 (name f0 : String) (fs : List String)
    (h0 : '<' ∈ f0.data) (hgt : ∀ f ∈ f0 :: fs, '>' ∉ f.data) :
    ∀ o ∈ ((init name).run_chunks (f0 :: fs)).2, o = none := by
  intro o ho
  have hstep := process_chunk_core_buffering (init name) f0 rfl rfl rfl
    (hgt f0 (List.mem_cons_self f0 fs)) (Or.inr h0)
  rw [run_chunks_cons_snd] at ho
  rcases List.mem_cons.mp ho with h | h
  · rw [h, hstep.1]
  · exact run_chunks_buffering fs ((init name).process_chunk_core f0).1
      hstep.2.1 hstep.2.2.1 hstep.2.2.2.1 hstep.2.2.2.2
      (fun g hg => hgt g (List.mem_cons_of_mem f0 hg)) o h

open NovaResponseParser in
/-- Claim C4 (witness): the amended claim at the concrete input
["<x hello", " world"] with tag name "tag". -/
theorem claim_c4_witness :
    ('<' ∈ "<x hello".data) ∧
    (∀ o ∈ ((init "tag").run_chunks ["<x hello", " world"]).2, o = none) :=
  ⟨by decide, claim_c4 "tag" "<x hello" [" world"] (by decide) (by decide)⟩

open NovaResponseParser in
/-- Claim C5 (counterexample): the single non-empty fragment "a<b" contains
no start delimiter "<tag>", yet the call that received it does not flush
(the trailing unmatched '<' keeps it buffered): cumulative output is ""
while cumulative input is "a<b", refuting identity pass-through as claimed. -/
theorem claim_c5_counterexample :
    ("a<b" ≠ "") ∧
    ¬((init "tag").startTok <:+: (String.join ["a<b"]).data) ∧
    flushedText ((init "tag").run_chunks ["a<b"]).2 = "" ∧
    String.join ["a<b"] = "a<b" ∧
    ("" : String) ≠ "a<b" := by
  refine ⟨by decide, by decide, by decide, by decide, by decide⟩

open NovaResponseParser in
/-- Claim C5 (amended): for every sequence of non-empty fragments whose
concatenation never contains the start delimiter, the concatenation of all
texts passed to the callback equals the concatenation of the consumed input
minus the still-buffered tail; the tail is empty — so cumulative output
equals cumulative input — whenever the scanner is not mid-way through an
unclosed '<' run after the last call. -/
theorem claim_c5 (name : String) (fs : List String)
    (_hne : ∀ f ∈ fs, f ≠ "")
    (hinf : ¬((init name).startTok <:+: (String.join fs).data)) :
    (flushedText ((init name).run_chunks fs).2).data ++
        (String.join ((init name).run_chunks fs).1.text_chunks).data
      = (String.join fs).data ∧
    (((init name).run_chunks fs).1.inside_tag = false →
      flushedText ((init name).run_chunks fs).2 = String.join fs) := by
  have hInv : (init name).ScanInv (String.join (init name).text_chunks).data := by
    refine ⟨rfl, rfl, ?_, fun _ => Or.inl rfl⟩
    intro hh
    exact nomatch hh
  have hinf2 : ¬((init name).startTok <:+:
      ((String.join (init name).text_chunks).data ++ (String.join fs).data)) := hinf
  have h := run_chunks_spec fs (init name) hInv (fun _ => rfl) hinf2
  have h1 : (flushedText ((init name).run_chunks fs).2).data ++
      (String.join ((init name).run_chunks fs).1.text_chunks).data
        = (String.join fs).data := by
    have := h.1
    rwa [show (String.join (init name).text_chunks).data = [] from rfl,
      List.nil_append] at this
  refine ⟨h1, ?_⟩
  intro hfalse
  have hempty := h.2 hfalse
  apply String.ext
  have := h1
  rw [hempty] at this
  rwa [show (String.join ([] : List String)).data = [] from rfl,
    List.append_nil] at this

open NovaResponseParser in
/-- Claim C5 (witness): the amended claim at the concrete input
["hello", "wor>ld"] with tag name "tag". -/
theorem claim_c5_witness :
    (¬((init "tag").startTok <:+: (String.join ["hello", "wor>ld"]).data)) ∧
    ((flushedText ((init "tag").run_chunks ["hello", "wor>ld"]).2).data ++
        (String.join ((init "tag").run_chunks ["hello", "wor>ld"]).1.text_chunks).data
      = (String.join ["hello", "wor>ld"]).data ∧
    (((init "tag").run_chunks ["hello", "wor>ld"]).1.inside_tag = false →
      flushedText ((init "tag").run_chunks ["hello", "wor>ld"]).2
        = String.join ["hello", "wor>ld"])) :=
  ⟨by decide, claim_c5 "tag" ["hello", "wor>ld"] (by decide) (by decide)⟩

end NovaSamples

namespace NovaSamples

open AudioBuffer in
/-- Claim C6: after every sequence of add_chunk calls on an AudioBuffer, the
total buffered byte count equals the sum of the lengths of the retained
chunks, never exceeds the configured byte cap, and the retained chunks are a
contiguous most-recently-added suffix of the chunks added so far (oldest
evicted first). -/
theorem claim_c6 (dur sr sw : Nat) (cs : List AudioChunk) :
    (add_all (init dur sr sw) cs).total_size
        = sumLens (add_all (init dur sr sw) cs).buffer ∧
    (add_all (init dur sr sw) cs).total_size
        ≤ (add_all (init dur sr sw) cs).max_buffer_size ∧
    (add_all (init dur sr sw) cs).buffer <:+ cs := by
  have h := add_all_inv cs (init dur sr sw) [] rfl (Nat.zero_le _) List.nil_suffix
  refine ⟨h.1, ?_, by simpa using h.2.2.1⟩
  rw [h.2.2.2]
  exact h.2.1

open AudioBuffer in
/-- Claim C9: adding a single chunk strictly larger than the byte cap makes
the eviction loop remove that chunk itself, leaving the buffer empty with
total_size 0 — the oversized chunk is dropped entirely. -/
theorem claim_c9 (dur sr sw : Nat) (cs : List AudioChunk) (c : AudioChunk)
    (hc : (init dur sr sw).max_buffer_size < c.length) :
    ((add_all (init dur sr sw) cs).add_chunk c).buffer = [] ∧
    ((add_all (init dur sr sw) cs).add_chunk c).total_size = 0 := by
  have h := add_all_inv cs (init dur sr sw) [] rfl (Nat.zero_le _) List.nil_suffix
  have hdrain := evictLoop_drain (add_all (init dur sr sw) cs).max_buffer_size c
    (by rw [h.2.2.2]; exact hc)
    (add_all (init dur sr sw) cs).buffer
    ((add_all (init dur sr sw) cs).total_size + c.length)
    (by rw [h.1, sumLens_append, sumLens_cons, sumLens_nil]; omega)
  unfold add_chunk
  rw [hdrain]
  exact ⟨rfl, rfl⟩

open AudioBuffer in
/-- Claim C9 (witness): a 2-byte chunk against a 1-byte cap, with one chunk
already buffered. -/
theorem claim_c9_witness :
    ((init 1 1 1).max_buffer_size < ([7, 8] : AudioChunk).length) ∧
    (((add_all (init 1 1 1) [[5]]).add_chunk [7, 8]).buffer = [] ∧
      ((add_all (init 1 1 1) [[5]]).add_chunk [7, 8]).total_size = 0) :=
  ⟨by decide, claim_c9 1 1 1 [[5]] [7, 8] (by decide)⟩

open ConversationHistory in
/-- Claim C7 (counterexample): with a per-message cap of 10 bytes (smaller
than the 15-byte truncation marker), adding a 20-byte content stores a
30-byte content: `max_content_bytes` is negative and the Python slice
`content_bytes[:-5]` keeps 15 bytes, to which the marker is appended, so the
stored message violates the per-message cap. -/
theorem claim_c7_counterexample :
    (((init 10 40960).add_message [117, 115, 101, 114]
        (List.replicate 20 97) "text" 0).1.messages.map (fun m => m.content.length))
      = [30] ∧ 10 < 30 := by
  refine ⟨by decide, by decide⟩

open ConversationHistory in
/-- Claim C7 (amended): provided the per-message byte cap is at least the
15-byte truncation marker, after every sequence of add_message calls: every
stored content is at most the per-message cap; the total byte size of the
stored messages is at most the history cap (oldest messages evicted first,
so the retained messages are a suffix of the stored forms of the inputs);
and an oversized content is stored truncated to at most the cap and ending
in the truncation marker. -/
theorem claim_c7 (maxS maxC : Nat) (h15 : 15 ≤ maxS)
    (l : List AddInput) :
    (∀ m ∈ (add_messages (init maxS maxC) l).messages, m.content.length ≤ maxS) ∧
    _get_total_size_bytes (add_messages (init maxS maxC) l).messages ≤ maxC ∧
    ((add_messages (init maxS maxC) l).messages <:+
      l.map (fun a => storedMessage maxS a.role a.content a.message_type a.now)) ∧
    (∀ (r c : List Nat) (ty : String) (n : Nat), maxS < c.length →
      (storedMessage maxS r c ty n).content.length ≤ maxS ∧
      truncation_marker <:+ (storedMessage maxS r c ty n).content) := by
  have h := add_messages_inv maxS maxC h15 l (init maxS maxC) [] rfl rfl
    (by intro m hm; exact absurd hm (by simp [init]))
    (Nat.zero_le maxC)
    (by simp [init])
  refine ⟨h.1, h.2.1, by simpa using h.2.2, ?_⟩
  intro r c ty n hlen
  have hts := truncateContent_spec maxS h15 c
  constructor
  · unfold storedMessage
    dsimp only
    rw [if_pos hlen]
    exact hts.1
  · unfold storedMessage
    dsimp only
    rw [if_pos hlen]
    exact hts.2

open ConversationHistory in
/-- Claim C7 (witness): the amended claim with caps (15, 40960) and one
oversized 20-byte message. -/
theorem claim_c7_witness :
    (15 ≤ 15) ∧
    ((∀ m ∈ (add_messages (init 15 40960)
        [⟨[117, 115, 101, 114], List.replicate 20 97, "text", 0⟩]).messages,
        m.content.length ≤ 15) ∧
      _get_total_size_bytes (add_messages (init 15 40960)
        [⟨[117, 115, 101, 114], List.replicate 20 97, "text", 0⟩]).messages ≤ 40960 ∧
      ((add_messages (init 15 40960)
        [⟨[117, 115, 101, 114], List.replicate 20 97, "text", 0⟩]).messages <:+
        ([⟨[117, 115, 101, 114], List.replicate 20 97, "text", 0⟩] :
          List AddInput).map
            (fun a => storedMessage 15 a.role a.content a.message_type a.now)) ∧
      (∀ (r c : List Nat) (ty : String) (n : Nat), 15 < c.length →
        (storedMessage 15 r c ty n).content.length ≤ 15 ∧
        truncation_marker <:+ (storedMessage 15 r c ty n).content)) :=
  ⟨by decide, claim_c7 15 40960 (by decide)
    [⟨[117, 115, 101, 114], List.replicate 20 97, "text", 0⟩]⟩

end NovaSamples

namespace NovaSamples

open ManagerState in
/-- Claim C1 (counterexample): a concrete execution in which the transition
is initiated (session 1 becomes next, with received_completion_start still
false) and the text-pairs-matched completion signal then promotes it: at the
end of the trace the current-session slot holds session 1 — the former next
session — with received_completion_start still false. -/
theorem claim_c1_counterexample :
    ((run_trace (initial_manager cfg0 0) (trace0.take 1)).next_session.map
        (fun s => (s.session_id, s.received_completion_start)) = some (1, false)) ∧
    ((run_trace (initial_manager cfg0 0) trace0).current_session.map
        (fun s => (s.session_id, s.received_completion_start)) = some (1, false)) ∧
    ((run_trace (initial_manager cfg0 0) trace0).next_session = none) := by
  refine ⟨by decide, by decide, by decide⟩

open ManagerState in
/-- Claim C1 (amended): promotion is gated only on a next session existing
and the completion signal (waiting_for_completion): whenever
_send_history_and_start_audio runs in that situation, the former next
session becomes current with its received_completion_start flag unchanged —
possibly still false; the first-content acknowledgment is not required for
promotion. -/
theorem claim_c1 (st : ManagerState) (s c : SessionInfo)
    (hn : st.next_session = some s) (hc : st.current_session = some c)
    (hw : st.waiting_for_completion = true) :
    (st.send_history_and_start_audio).1.current_session.map
        (fun x => x.received_completion_start) = some s.received_completion_start ∧
    (st.send_history_and_start_audio).1.current_session.map
        (fun x => x.session_id) = some s.session_id ∧
    (st.send_history_and_start_audio).1.next_session = none := by
  have h := send_history_promotes st s c hn hc hw
  rw [h.1]
  exact ⟨rfl, rfl, h.2.1⟩

open ManagerState in
/-- Claim C1 (witness): the amended claim at the concrete mid-transition
state `c1_state`, whose next session has received no acknowledgment. -/
theorem claim_c1_witness :
    ((mk_session 1 6).received_completion_start = false) ∧
    ((c1_state.send_history_and_start_audio).1.current_session.map
        (fun x => x.received_completion_start)
          = some (mk_session 1 6).received_completion_start ∧
      (c1_state.send_history_and_start_audio).1.current_session.map
        (fun x => x.session_id) = some (mk_session 1 6).session_id ∧
      (c1_state.send_history_and_start_audio).1.next_session = none) :=
  ⟨rfl, claim_c1 c1_state (mk_session 1 6) (mk_session 0 0) rfl rfl rfl⟩

open ManagerState in
/-- Claim C8: if stream creation inside _initiate_transition fails, the
method resets all four transition flags, discards the partial next session
and re-raises; the monitor iteration that called it swallows the exception
(returning a normal state with those flags cleared and the current session
intact), and a later threshold evaluation re-arms the transition. -/
theorem claim_c8 (st : ManagerState) (now now2 : Nat) (c : SessionInfo)
    (hc : st.current_session = some c)
    (hstate : ¬c.state = SessionState.closed)
    (hwait : st.waiting_for_audio_start = true)
    (htimeout : st.audio_start_timed_out now = true)
    (htrans : st.is_transitioning = false)
    (hsh2 : c.should_transition now2
      (st.monitor_step now none false).1.transition_config.transition_threshold_seconds) :
    ((st.initiate_transition now false).2 = true ∧
      (st.initiate_transition now false).1.is_transitioning = false ∧
      (st.initiate_transition now false).1.transition_ready = false ∧
      (st.initiate_transition now false).1.waiting_for_audio_start = false ∧
      (st.initiate_transition now false).1.waiting_for_completion = false ∧
      (st.initiate_transition now false).1.next_session = none) ∧
    ((st.monitor_step now none false).2 = [] ∧
      (st.monitor_step now none false).1.is_transitioning = false ∧
      (st.monitor_step now none false).1.transition_ready = false ∧
      (st.monitor_step now none false).1.waiting_for_audio_start = false ∧
      (st.monitor_step now none false).1.waiting_for_completion = false ∧
      (st.monitor_step now none false).1.next_session = none ∧
      (st.monitor_step now none false).1.current_session = some c) ∧
    (((st.monitor_step now none false).1.monitor_step now2 none true).1.waiting_for_audio_start
      = true) := by
  have h1 := initiate_transition_failure st now htrans
  have h2 := monitor_step_create_failure st now c hc hstate hwait htimeout htrans
  refine ⟨⟨h1.1, h1.2.1, h1.2.2.1, h1.2.2.2.1, h1.2.2.2.2.1, h1.2.2.2.2.2.1⟩, h2, ?_⟩
  exact monitor_step_threshold_retry (st.monitor_step now none false).1 now2 c
    h2.2.2.2.2.2.2 hstate hsh2 h2.2.1 h2.2.2.2.1

open ManagerState in
/-- Claim C8 (witness): the claim at the concrete state `c8_state` (audio
start awaited since t = 6), with the creation failure at t = 12 and a retry
threshold evaluation at t = 20. -/
theorem claim_c8_witness :
    (c8_state.audio_start_timed_out 12 = true) ∧
    (((c8_state.initiate_transition 12 false).2 = true ∧
      (c8_state.initiate_transition 12 false).1.is_transitioning = false ∧
      (c8_state.initiate_transition 12 false).1.transition_ready = false ∧
      (c8_state.initiate_transition 12 false).1.waiting_for_audio_start = false ∧
      (c8_state.initiate_transition 12 false).1.waiting_for_completion = false ∧
      (c8_state.initiate_transition 12 false).1.next_session = none) ∧
    ((c8_state.monitor_step 12 none false).2 = [] ∧
      (c8_state.monitor_step 12 none false).1.is_transitioning = false ∧
      (c8_state.monitor_step 12 none false).1.transition_ready = false ∧
      (c8_state.monitor_step 12 none false).1.waiting_for_audio_start = false ∧
      (c8_state.monitor_step 12 none false).1.waiting_for_completion = false ∧
      (c8_state.monitor_step 12 none false).1.next_session = none ∧
      (c8_state.monitor_step 12 none false).1.current_session = some (mk_session 0 0)) ∧
    (((c8_state.monitor_step 12 none false).1.monitor_step 20 none true).1.waiting_for_audio_start
      = true)) :=
  ⟨by decide, claim_c8 c8_state 12 20 (mk_session 0 0) (by decide) (by decide)
    (by decide) (by decide) (by decide) (by decide)⟩

open ManagerState in
/-- Claim C10: _send_history_and_start_audio returns immediately, sending no
events and leaving the state unchanged, whenever next_session is None or
waiting_for_completion is false; after any run it leaves a state in which
one of those holds (its first effect being to clear waiting_for_completion
under the lock), so a second completion trigger during the same transition
is a no-op. -/
theorem claim_c10 (st st2 : ManagerState)
    (h : st.next_session = none ∨ st.waiting_for_completion = false) :
    st.send_history_and_start_audio = (st, []) ∧
    ((st2.send_history_and_start_audio).1.next_session = none ∨
      (st2.send_history_and_start_audio).1.waiting_for_completion = false) ∧
    (st2.send_history_and_start_audio).1.send_history_and_start_audio
      = ((st2.send_history_and_start_audio).1, []) :=
  ⟨send_history_guard st h, send_history_post st2, send_history_idem st2⟩

open ManagerState in
/-- Claim C10 (witness): the claim at the idle initial state (no next
session) and at the concrete mid-transition state `c1_state` (where the
first run really does send history and promote). -/
theorem claim_c10_witness :
    ((initial_manager cfg0 0).next_session = none ∨
      (initial_manager cfg0 0).waiting_for_completion = false) ∧
    ((initial_manager cfg0 0).send_history_and_start_audio
        = (initial_manager cfg0 0, []) ∧
      ((c1_state.send_history_and_start_audio).1.next_session = none ∨
        (c1_state.send_history_and_start_audio).1.waiting_for_completion = false) ∧
      (c1_state.send_history_and_start_audio).1.send_history_and_start_audio
        = ((c1_state.send_history_and_start_audio).1, [])) :=
  ⟨Or.inl rfl, claim_c10 (initial_manager cfg0 0) c1_state (Or.inl rfl)⟩

end NovaSamples
